import Mathlib

/-!
Verification development for the two-phase hotel scraping scripts
(`discovery_room.py`, `scraper.py`).

Shallow embedding: Python strings are modelled as `List Char`, wall-clock
times as `Int` (seconds), calendar dates as `Int` (days since an arbitrary
epoch, so `timedelta(days=n)` is `+ n`), and the draws of `random.choice` /
`random.randint` as explicit oracle values.  The browser collaborator,
the LLM extraction call and `json.loads` + pydantic validation are oracle
parameters of the orchestration loop; everything else is translated from
the source.
-/

/-- Whitespace characters recognised by Python `str.strip` (ASCII subset). -/
def isPySpace (c : Char) : Bool :=
  (c == ' ') || (c == '\t') || (c == '\n') || (c == '\r') || (c == '\x0b') || (c == '\x0c')

/-- Embedding of Python `str.strip()`. -/
def pyStrip (l : List Char) : List Char :=
  ((l.dropWhile isPySpace).reverse.dropWhile isPySpace).reverse

/-- The scanning loop of `extract_first_json_object` (scraper.py lines 77-94).
Arguments: remaining characters, current index `i`, recorded `start`
(Python `-1` is `none`), `brace_count`, `in_string`, `escape`.  Python's
early `return s[start:i+1]` is modelled by returning the pair of indices
`(start, i)`; the caller takes the slice. -/
def extractScan : List Char → Nat → Option Nat → Nat → Bool → Bool → Option (Nat × Nat)
  | [], _, _, _, _, _ => none
  | ch :: rest, i, start, braceCount, inString, escape =>
    if ch = '\\' ∧ escape = false then
      extractScan rest (i + 1) start braceCount inString true
    else
      let inString1 := if ch = '"' ∧ escape = false then !inString else inString
      if inString1 = false then
        if ch = '\x7b' then
          extractScan rest (i + 1) (if braceCount = 0 then some i else start)
            (braceCount + 1) inString1 false
        else if ch = '\x7d' then
          if 0 < braceCount then
            if braceCount - 1 = 0 ∧ start.isSome = true then
              some (start.getD 0, i)
            else
              extractScan rest (i + 1) start (braceCount - 1) inString1 false
          else
            extractScan rest (i + 1) start braceCount inString1 false
        else
          extractScan rest (i + 1) start braceCount inString1 false
      else
        extractScan rest (i + 1) start braceCount inString1 false

/-- Embedding of `extract_first_json_object` (scraper.py lines 67-95):
`if not text: return None`, strip, scan, and slice `s[start:i+1]`. -/
def extract_first_json_object (text : List Char) : Option (List Char) :=
  if text = [] then none
  else
    match extractScan (pyStrip text) 0 none 0 false false with
    | some (a, b) => some (((pyStrip text).drop a).take (b - a + 1))
    | none => none

/-- State of the salvage scanner: brace depth, in-string flag, escape flag. -/
structure ScanState where
  depth : Nat
  inStr : Bool
  esc : Bool
deriving DecidableEq, Repr

/-- One character's effect on the scanner state, mirroring the loop body of
`extract_first_json_object` without the early return. -/
def stateStep (st : ScanState) (ch : Char) : ScanState :=
  if ch = '\\' ∧ st.esc = false then
    { st with esc := true }
  else
    let inStr1 := if ch = '"' ∧ st.esc = false then !st.inStr else st.inStr
    let depth1 :=
      if inStr1 = false then
        if ch = '\x7b' then st.depth + 1
        else if ch = '\x7d' then (if 0 < st.depth then st.depth - 1 else st.depth)
        else st.depth
      else st.depth
    { depth := depth1, inStr := inStr1, esc := false }

/-- Folding the scanner state over a character sequence. -/
def scanFold (st : ScanState) (l : List Char) : ScanState :=
  l.foldl stateStep st

/-- Initial scanner state. -/
def initScan : ScanState := ⟨0, false, false⟩

/-- Index of the first character after which the depth returns to zero. -/
def firstClose (st : ScanState) : List Char → Option Nat
  | [] => none
  | ch :: rest =>
    let st1 := stateStep st ch
    if st1.depth = 0 then some 0 else (firstClose st1 rest).map (· + 1)

/-- How the recorded start index evolves on one character. -/
def nextStart (st : ScanState) (start : Option Nat) (i : Nat) (ch : Char) : Option Nat :=
  if ch = '\x7b' ∧ st.inStr = false ∧ st.depth = 0 then some i else start

/-- A character of surrounding prose that does not interact with the scanner:
not a brace, not a quote, not a backslash. -/
def proseNeutral (c : Char) : Prop :=
  c ≠ '\x7b' ∧ c ≠ '\x7d' ∧ c ≠ '"' ∧ c ≠ '\x5c'

/-- A balanced top-level JSON object in the sense of the spec: starts with
an opening brace, the string/escape-aware brace depth of every proper
nonempty prefix is positive, and the depth of the whole is zero (the
matching close is the final character). -/
def BalancedObject (obj : List Char) : Prop :=
  obj.head? = some '\x7b' ∧
  (scanFold initScan obj).depth = 0 ∧
  ∀ n, n < obj.length → 0 < n → 0 < (scanFold initScan (obj.take n)).depth

instance : DecidablePred proseNeutral := fun _ => by
  unfold proseNeutral; infer_instance

instance (obj : List Char) : Decidable (BalancedObject obj) := by
  unfold BalancedObject; infer_instance

/-- Python `str.lower()` (ASCII embedding). -/
def pyLower (l : List Char) : List Char :=
  l.map Char.toLower

/-- Whether `needle` is a prefix of `hay` (helper for Python's `in`). -/
def startsWithL : List Char → List Char → Bool
  | [], _ => true
  | _ :: _, [] => false
  | n :: ns, h :: hs => (n == h) && startsWithL ns hs

/-- Python's substring test `needle in hay`. -/
def pyIn (needle : List Char) : List Char → Bool
  | [] => needle.isEmpty
  | c :: rest => startsWithL needle (c :: rest) || pyIn needle rest

/-- The CAPTCHA indicator list tested against the extracted content
(scraper.py line 764).  Note: four keywords; the in-page JavaScript checks
additionally test "robot", but this Python-side predicate does not. -/
def captcha_indicators : List (List Char) :=
  ["show us your human side".data, "prove you are human".data,
   "captcha".data, "start puzzle".data]

/-- The CAPTCHA test applied to `result.extracted_content`
(scraper.py lines 763-766): case-insensitive substring match. -/
def has_captcha (content : List Char) : Bool :=
  captcha_indicators.any (fun ind => pyIn ind (pyLower content))

/-- Modelled from the spec: the five-keyword indicator list that §4.4 and
claim C4 describe ("show us your human side", "prove you are human",
"captcha", "robot", "start puzzle"). -/
def spec_captcha_keywords : List (List Char) :=
  ["show us your human side".data, "prove you are human".data,
   "captcha".data, "robot".data, "start puzzle".data]

/-- Modelled from the spec: the five-keyword CAPTCHA predicate of claim C4. -/
def spec_has_captcha (content : List Char) : Bool :=
  spec_captcha_keywords.any (fun ind => pyIn ind (pyLower content))

/-- The user-agent catalog of `get_random_user_agent` (scraper.py lines 112-130). -/
def user_agents : List String :=
  ["Mozilla/5.0 (Windows NT 10.0; Win64; x64) AppleWebKit/537.36 (KHTML, like Gecko) Chrome/120.0.0.0 Safari/537.36",
   "Mozilla/5.0 (Windows NT 10.0; Win64; x64) AppleWebKit/537.36 (KHTML, like Gecko) Chrome/119.0.0.0 Safari/537.36",
   "Mozilla/5.0 (Macintosh; Intel Mac OS X 10_15_7) AppleWebKit/537.36 (KHTML, like Gecko) Chrome/120.0.0.0 Safari/537.36",
   "Mozilla/5.0 (Macintosh; Intel Mac OS X 10_15_7) AppleWebKit/537.36 (KHTML, like Gecko) Chrome/119.0.0.0 Safari/537.36",
   "Mozilla/5.0 (Windows NT 10.0; Win64; x64; rv:121.0) Gecko/20100101 Firefox/121.0",
   "Mozilla/5.0 (Windows NT 10.0; Win64; x64; rv:120.0) Gecko/20100101 Firefox/120.0",
   "Mozilla/5.0 (Macintosh; Intel Mac OS X 10.15; rv:121.0) Gecko/20100101 Firefox/121.0",
   "Mozilla/5.0 (Macintosh; Intel Mac OS X 10.15; rv:120.0) Gecko/20100101 Firefox/120.0",
   "Mozilla/5.0 (Macintosh; Intel Mac OS X 10_15_7) AppleWebKit/605.1.15 (KHTML, like Gecko) Version/17.2 Safari/605.1.15",
   "Mozilla/5.0 (Macintosh; Intel Mac OS X 10_15_7) AppleWebKit/605.1.15 (KHTML, like Gecko) Version/17.1 Safari/605.1.15",
   "Mozilla/5.0 (Windows NT 10.0; Win64; x64) AppleWebKit/537.36 (KHTML, like Gecko) Chrome/120.0.0.0 Safari/537.36 Edg/120.0.0.0"]

/-- A viewport as in `get_random_viewport`. -/
structure Viewport where
  width : Nat
  height : Nat
deriving DecidableEq, Repr

/-- The viewport catalog of `get_random_viewport` (scraper.py lines 135-143). -/
def viewports : List Viewport :=
  [⟨1920, 1080⟩, ⟨1366, 768⟩, ⟨1440, 900⟩, ⟨1536, 864⟩, ⟨1280, 720⟩,
   ⟨1600, 900⟩, ⟨2560, 1440⟩]

/-- One bundle of random draws consumed by a `SessionManager.__init__` call:
indices into the two catalogs (`random.choice`) and the raw draw behind
`random.randint(1000, 9999)`. -/
structure Rng where
  uaIdx : Nat
  vpIdx : Nat
  idRand : Nat
deriving DecidableEq, Repr

/-- Embedding of `get_random_user_agent` with its random draw explicit. -/
def get_random_user_agent (r : Rng) : String :=
  user_agents.getD (r.uaIdx % user_agents.length) default

/-- Embedding of `get_random_viewport` with its random draw explicit. -/
def get_random_viewport (r : Rng) : Viewport :=
  viewports.getD (r.vpIdx % viewports.length) ⟨0, 0⟩

/-- The `SessionManager` state (scraper.py lines 468-504). -/
structure SessionManager where
  session_id : String
  user_agent : String
  viewport : Viewport
  request_count : Nat
  start_time : Int
deriving DecidableEq, Repr

/-- Embedding of `SessionManager.__init__` (scraper.py lines 471-477):
`now` is the `time.time()` reading (whole seconds) and `r` the random
draws; `cleanup_browser_data` only prints. -/
def SessionManager.init (now : Int) (r : Rng) : SessionManager :=
  { session_id :=
      "session_" ++ toString now ++ "_" ++ toString (1000 + r.idRand % 9000),
    user_agent := get_random_user_agent r,
    viewport := get_random_viewport r,
    request_count := 0,
    start_time := now }

/-- Embedding of `SessionManager.should_rotate_session` (scraper.py
lines 479-486). -/
def should_rotate_session (s : SessionManager) (now : Int) : Bool :=
  let time_limit : Int := 20 * 60
  let request_limit : Nat := 10
  let elapsed : Int := now - s.start_time
  decide (request_limit ≤ s.request_count) || decide (time_limit ≤ elapsed)

/-- Embedding of `SessionManager.increment_request` (scraper.py lines 488-490). -/
def increment_request (s : SessionManager) : SessionManager :=
  { s with request_count := s.request_count + 1 }

/-- Embedding of `SessionManager.rotate_session` (scraper.py lines 500-504):
`cleanup_browser_data` (print only) followed by `self.__init__()`. -/
def rotate_session (_s : SessionManager) (now : Int) (r : Rng) : SessionManager :=
  SessionManager.init now r

/-- A date-scoped URL: the base plus `chkin`/`chkout` query dates
(the remaining query parameters are the fixed `x_pwa=1&rfrr=HSR`). -/
structure PlannedUrl where
  base : String
  chkin : Int
  chkout : Int
deriving DecidableEq, Repr

/-- One entry of `urls_and_dates` (scraper.py lines 547-556). -/
structure PlanItem where
  url : PlannedUrl
  date : Int
deriving DecidableEq, Repr

/-- The pricing-mode URL planner (scraper.py lines 547-556): consecutive
days, checkout one day after checkin. -/
def pricing_plan (hotel_url : String) (start_date : Int) (num_days : Nat) : List PlanItem :=
  (List.range num_days).map (fun (i : Nat) =>
    let checkin := start_date + (i : Int)
    let checkout := checkin + 1
    { url := { base := hotel_url, chkin := checkin, chkout := checkout },
      date := checkin })

/-- The discovery-mode URL planner (discovery_room.py lines 105-115):
samples spaced `sample_interval` days apart, checkout one day after checkin. -/
def discovery_plan (base_url : String) (start_date : Int) (num_days_to_check : Nat)
    (sample_interval : Nat) : List PlanItem :=
  (List.range num_days_to_check).map (fun (day_offset : Nat) =>
    let checkin := start_date + (day_offset : Int) * (sample_interval : Int)
    let checkout := checkin + 1
    { url := { base := base_url, chkin := checkin, chkout := checkout },
      date := checkin })

/-- Embedding of `RoomListing` (scraper.py lines 31-34). -/
structure RoomListing where
  name : String
  price : String
deriving DecidableEq, Repr

/-- Embedding of `DailyRate` (scraper.py lines 36-39). -/
structure DailyRate where
  date : String
  listings : List RoomListing
deriving DecidableEq, Repr

/-- The missing-room computation of scraper.py line 814:
`set(hotel_profile.room_types) - set([l.name for l in listings])`. -/
def missing_rooms (room_types : List String) (listings : List RoomListing) : Finset String :=
  room_types.toFinset \ (listings.map RoomListing.name).toFinset

/-- The result of `crawler.arun` as the orchestration loop sees it. -/
structure CrawlResult where
  success : Bool
  extracted_content : Option (List Char)

/-- Python truthiness of `result.extracted_content` (None and the empty
string are falsy). -/
def truthy : Option (List Char) → Bool
  | none => false
  | some c => !c.isEmpty

/-- Outcome of `json.loads` plus the `isinstance(..., dict)` check plus
`DailyRate.model_validate` (scraper.py lines 787-821), supplied as an
oracle: `okDict` is a dict validating as a `DailyRate`, `nonDict` a
well-formed non-dict value, `failure` a `JSONDecodeError`/`ValidationError`. -/
inductive ParseOutcome
  | okDict (d : DailyRate)
  | nonDict
  | failure
deriving DecidableEq, Repr

/-- Observable events of one pricing run, in program order: collaborator
calls, diagnostic files written, session rotations, randomized delays
(recorded by their bounds in seconds), accepted rates and warnings. -/
inductive LogEvent
  | arunCall (dateIdx : Nat)
  | captchaSaved (dateIdx : Nat) (raw : List Char)
  | rotated
  | delayed (lo hi : Nat)
  | rateAppended (dateIdx : Nat) (rate : DailyRate)
  | formatWarn (dateIdx : Nat)
  | debugSaved (dateIdx : Nat) (raw : List Char)
  | extractionWarn (dateIdx : Nat)
  | missingReported (dateIdx : Nat) (missing : Finset String)
  | crawlFailed (dateIdx : Nat)
deriving DecidableEq

/-- The external collaborators and nondeterminism of `scrape_hotel_prices`,
as oracles: the crawl result per date index, the parse/validate outcome per
input text, wall-clock readings and random draws. -/
structure Oracles where
  collab : Nat → CrawlResult
  parse : List Char → ParseOutcome
  iterTime : Nat → Int
  rotTime : Nat → Int
  rotRng : Nat → Rng
  initTime : Int
  initRng : Rng

/-- Mutable state of the pricing loop: the session manager, the number of
rotations performed so far (indexing the rotation oracles), the
accumulated `all_daily_rates`, and the event log. -/
structure LoopState where
  sm : SessionManager
  rots : Nat
  rates : List DailyRate
  log : List LogEvent

/-- One iteration of the per-date loop of `scrape_hotel_prices`
(scraper.py lines 560-838), for 0-based date index `k` (Python's `idx`
is `k + 1`): rotate if due, count the request, delay between requests,
crawl, then branch on CAPTCHA / parse / failure exactly as the source
does.  The browser warm-up on the first iteration touches no modelled
state. -/
def scrapeDateStep (room_types : List String) (o : Oracles) (s : LoopState)
    (k : Nat) : LoopState :=
  let needRot := should_rotate_session s.sm (o.iterTime k)
  let sm1 := if needRot then rotate_session s.sm (o.rotTime s.rots) (o.rotRng s.rots) else s.sm
  let rots1 := if needRot then s.rots + 1 else s.rots
  let ev1 : List LogEvent := if needRot then [.rotated] else []
  let sm2 := increment_request sm1
  let ev2 : List LogEvent := if 0 < k then [.delayed 8 20] else []
  let result := o.collab k
  let ev3 : List LogEvent := [.arunCall k]
  if result.success = true ∧ truthy result.extracted_content = true then
    let content := result.extracted_content.getD []
    if has_captcha content = true then
      { sm := rotate_session sm2 (o.rotTime rots1) (o.rotRng rots1),
        rots := rots1 + 1,
        rates := s.rates,
        log := s.log ++ ev1 ++ ev2 ++ ev3 ++
          [.captchaSaved k content, .rotated, .delayed 30 60] }
    else
      let to_parse := (extract_first_json_object content).getD content
      match o.parse to_parse with
      | .okDict d =>
        let evWarn : List LogEvent :=
          if d.listings.length < room_types.length then
            [.extractionWarn k] ++
              (if missing_rooms room_types d.listings = ∅ then []
               else [.missingReported k (missing_rooms room_types d.listings)])
          else []
        { sm := sm2, rots := rots1, rates := s.rates ++ [d],
          log := s.log ++ ev1 ++ ev2 ++ ev3 ++ [.rateAppended k d] ++ evWarn }
      | .nonDict =>
        { sm := sm2, rots := rots1, rates := s.rates,
          log := s.log ++ ev1 ++ ev2 ++ ev3 ++ [.formatWarn k] }
      | .failure =>
        { sm := sm2, rots := rots1, rates := s.rates,
          log := s.log ++ ev1 ++ ev2 ++ ev3 ++ [.debugSaved k content] }
  else
    { sm := rotate_session sm2 (o.rotTime rots1) (o.rotRng rots1),
      rots := rots1 + 1,
      rates := s.rates,
      log := s.log ++ ev1 ++ ev2 ++ ev3 ++ [.crawlFailed k, .rotated, .delayed 5 10] }

/-- The pricing run over `num_days` consecutive dates
(scraper.py lines 541-838). -/
def scrape_hotel_prices_run (room_types : List String) (o : Oracles)
    (num_days : Nat) : LoopState :=
  (List.range num_days).foldl (scrapeDateStep room_types o)
    { sm := SessionManager.init o.initTime o.initRng, rots := 0, rates := [], log := [] }

/-- Number of collaborator calls made for date index `d` in a log. -/
def arunCount (d : Nat) : List LogEvent → Nat
  | [] => 0
  | .arunCall d' :: rest => (if d' = d then 1 else 0) + arunCount d rest
  | _ :: rest => arunCount d rest

/-- Per-date room-name set `set(str(item) for item in room_list ...)`
(discovery_room.py line 194). -/
def current_sample_rooms (room_list : List String) : Finset String :=
  room_list.toFinset

/-- The discovery aggregator `discovered_rooms.update(...)` across samples
(discovery_room.py lines 192-196). -/
def discovered_union (samples : List (List String)) : Finset String :=
  samples.foldl (fun acc l => acc ∪ current_sample_rooms l) ∅

/-- The final catalog `sorted(list(discovered_rooms))`
(discovery_room.py line 218). -/
def room_types_output (samples : List (List String)) : List String :=
  (discovered_union samples).sort (· ≤ ·)

/-- Oracle bundle for a collaborator that always returns a CAPTCHA page. -/
def alwaysCaptchaOracles : Oracles :=
  { collab := fun _ => ⟨true, some ("captcha".data)⟩,
    parse := fun _ => ParseOutcome.failure,
    iterTime := fun _ => 0, rotTime := fun _ => 0, rotRng := fun _ => ⟨0, 0, 0⟩,
    initTime := 0, initRng := ⟨0, 0, 0⟩ }

/-- Oracle bundle for a collaborator that returns the page text "robot". -/
def robotOracles : Oracles :=
  { collab := fun _ => ⟨true, some ("robot".data)⟩,
    parse := fun _ => ParseOutcome.nonDict,
    iterTime := fun _ => 0, rotTime := fun _ => 0, rotRng := fun _ => ⟨0, 0, 0⟩,
    initTime := 0, initRng := ⟨0, 0, 0⟩ }

/-- A validated rate with three listings over catalog [A, B, C] that omits
"C" (B is listed twice). -/
def dupRate : DailyRate :=
  ⟨"2025-08-26", [⟨"A", "1"⟩, ⟨"B", "1"⟩, ⟨"B", "2"⟩]⟩

/-- Oracle bundle whose parse step validates `dupRate`. -/
def dupRateOracles : Oracles :=
  { collab := fun _ => ⟨true, some ("x".data)⟩,
    parse := fun _ => ParseOutcome.okDict dupRate,
    iterTime := fun _ => 0, rotTime := fun _ => 0, rotRng := fun _ => ⟨0, 0, 0⟩,
    initTime := 0, initRng := ⟨0, 0, 0⟩ }

/-- A validated rate listing only two of the three catalog rooms. -/
def twoOfThreeRate : DailyRate :=
  ⟨"2025-08-26", [⟨"A", "1"⟩, ⟨"B", "1"⟩]⟩

/-- Oracle bundle whose parse step validates `twoOfThreeRate`. -/
def twoOfThreeOracles : Oracles :=
  { collab := fun _ => ⟨true, some ("x".data)⟩,
    parse := fun _ => ParseOutcome.okDict twoOfThreeRate,
    iterTime := fun _ => 0, rotTime := fun _ => 0, rotRng := fun _ => ⟨0, 0, 0⟩,
    initTime := 0, initRng := ⟨0, 0, 0⟩ }

/-- An initial loop state at time 0. -/
def zeroState : LoopState :=
  { sm := SessionManager.init 0 ⟨0, 0, 0⟩, rots := 0, rates := [], log := [] }

lemma scan_cons_ret (rest : List Char) (i a : Nat) (escape : Bool) :
    extractScan ('\x7d' :: rest) i (some a) 1 false escape = some (a, i) := by
  simp [extractScan]

lemma scan_cons_step (ch : Char) (rest : List Char) (i : Nat) (start : Option Nat)
    (bc : Nat) (istr esc : Bool)
    (h : ¬(ch = '\x7d' ∧ istr = false ∧ bc = 1 ∧ start.isSome = true)) :
    extractScan (ch :: rest) i start bc istr esc =
      extractScan rest (i + 1) (nextStart ⟨bc, istr, esc⟩ start i ch)
        (stateStep ⟨bc, istr, esc⟩ ch).depth (stateStep ⟨bc, istr, esc⟩ ch).inStr
        (stateStep ⟨bc, istr, esc⟩ ch).esc := by
  simp only [extractScan, stateStep, nextStart]
  by_cases h1 : ch = '\x5c' ∧ esc = false
  · obtain ⟨rfl, rfl⟩ := h1
    simp
  · simp only [if_neg h1]
    by_cases hq : ch = '"' ∧ esc = false
    · obtain ⟨rfl, rfl⟩ := hq
      cases istr <;> simp_all
    · simp only [if_neg hq]
      by_cases hi : istr
      · subst hi; simp_all
      · simp only [Bool.not_eq_true] at hi; subst hi
        by_cases ho : ch = '\x7b'
        · subst ho
          cases bc <;> simp_all
        · simp only [if_neg ho]
          by_cases hc : ch = '\x7d'
          · subst hc
            simp only at h
            match bc, start with
            | 0, start => simp_all
            | 1, none => simp_all
            | 1, some a => simp_all
            | (n+2), start => simp_all [Nat.succ_sub_one]
          · simp_all

lemma scanFold_nil (st : ScanState) : scanFold st [] = st := rfl

lemma scanFold_cons (st : ScanState) (ch : Char) (l : List Char) :
    scanFold st (ch :: l) = scanFold (stateStep st ch) l := rfl

lemma stateStep_depth_zero (d : Nat) (istr e : Bool) (ch : Char) (hd : 0 < d)
    (h0 : (stateStep ⟨d, istr, e⟩ ch).depth = 0) :
    ch = '\x7d' ∧ istr = false ∧ d = 1 := by
  simp only [stateStep] at h0
  split_ifs at h0 <;> simp_all
  omega

lemma stateStep_close (d : Nat) (e : Bool) :
    (stateStep ⟨d, false, e⟩ '\x7d').depth = d - 1 := by
  simp only [stateStep]
  split_ifs <;> simp_all

lemma scan_reaches_close :
    ∀ (l : List Char) (d : Nat) (istr e : Bool) (i a k : Nat),
      0 < d → firstClose ⟨d, istr, e⟩ l = some k →
      extractScan l i (some a) d istr e = some (a, i + k)
  | [], d, istr, e, i, a, k, hd, hfc => by simp [firstClose] at hfc
  | ch :: rest, d, istr, e, i, a, k, hd, hfc => by
    simp only [firstClose] at hfc
    by_cases hz : (stateStep ⟨d, istr, e⟩ ch).depth = 0
    · rw [if_pos hz] at hfc
      obtain ⟨rfl⟩ : k = 0 := by simpa using hfc.symm
      obtain ⟨rfl, rfl, rfl⟩ := stateStep_depth_zero d istr e ch hd hz
      simpa using scan_cons_ret rest i a e
    · rw [if_neg hz] at hfc
      obtain ⟨k', hk', rfl⟩ : ∃ k', firstClose (stateStep ⟨d, istr, e⟩ ch) rest = some k' ∧ k = k' + 1 := by
        cases hfc' : firstClose (stateStep ⟨d, istr, e⟩ ch) rest with
        | none => rw [hfc'] at hfc; simp at hfc
        | some k' => rw [hfc'] at hfc; simp at hfc; exact ⟨k', rfl, hfc.symm⟩
      have hret : ¬(ch = '\x7d' ∧ istr = false ∧ d = 1 ∧ (some a).isSome = true) := by
        rintro ⟨rfl, rfl, rfl, -⟩
        exact hz (by simpa using stateStep_close 1 e)
      rw [scan_cons_step ch rest i (some a) d istr e hret]
      have hns : nextStart ⟨d, istr, e⟩ (some a) i ch = some a := by
        simp only [nextStart]
        split_ifs with hcond
        · exact absurd hcond.2.2 (by omega)
        · rfl
      rw [hns]
      have := scan_reaches_close rest (stateStep ⟨d, istr, e⟩ ch).depth
        (stateStep ⟨d, istr, e⟩ ch).inStr (stateStep ⟨d, istr, e⟩ ch).esc (i + 1) a k'
        (Nat.pos_of_ne_zero hz) (by exact hk')
      rw [this]
      have harith : i + 1 + k' = i + (k' + 1) := by omega
      rw [harith]

lemma scan_never_close :
    ∀ (l : List Char) (d : Nat) (istr e : Bool) (i : Nat) (start : Option Nat),
      0 < d → firstClose ⟨d, istr, e⟩ l = none →
      extractScan l i start d istr e = none
  | [], _, _, _, _, _, _, _ => rfl
  | ch :: rest, d, istr, e, i, start, hd, hfc => by
    simp only [firstClose] at hfc
    by_cases hz : (stateStep ⟨d, istr, e⟩ ch).depth = 0
    · rw [if_pos hz] at hfc; exact absurd hfc (by simp)
    · rw [if_neg hz] at hfc
      have hfc' : firstClose (stateStep ⟨d, istr, e⟩ ch) rest = none := by
        cases h' : firstClose (stateStep ⟨d, istr, e⟩ ch) rest with
        | none => rfl
        | some k => rw [h'] at hfc; simp at hfc
      have hret : ¬(ch = '\x7d' ∧ istr = false ∧ d = 1 ∧ start.isSome = true) := by
        rintro ⟨rfl, rfl, rfl, -⟩
        exact hz (by simpa using stateStep_close 1 e)
      rw [scan_cons_step ch rest i start d istr e hret]
      exact scan_never_close rest _ _ _ (i + 1) _ (Nat.pos_of_ne_zero hz) hfc'

lemma stateStep_neutral (c : Char) (hc : proseNeutral c) :
    stateStep ⟨0, false, false⟩ c = ⟨0, false, false⟩ := by
  obtain ⟨h1, h2, h3, h4⟩ := hc
  simp only [stateStep]
  split_ifs <;> simp_all

lemma scan_prose_skip :
    ∀ (p : List Char) (rest : List Char) (i : Nat),
      (∀ c ∈ p, proseNeutral c) →
      extractScan (p ++ rest) i none 0 false false =
        extractScan rest (i + p.length) none 0 false false
  | [], rest, i, _ => by simp
  | c :: p', rest, i, hp => by
    have hc := hp c (by simp)
    obtain ⟨h1, h2, h3, h4⟩ := hc
    have hret : ¬(c = '\x7d' ∧ false = false ∧ 0 = 1 ∧ (none : Option Nat).isSome = true) := by
      simp
    rw [List.cons_append, scan_cons_step c (p' ++ rest) i none 0 false false hret]
    have hns : nextStart ⟨0, false, false⟩ none i c = none := by
      simp only [nextStart]
      split_ifs with hcond
      · exact absurd hcond.1 h1
      · rfl
    rw [hns, stateStep_neutral c ⟨h1, h2, h3, h4⟩]
    rw [scan_prose_skip p' rest (i + 1) (fun c hc => hp c (by simp [hc]))]
    have harith : i + 1 + p'.length = i + (c :: p').length := by simp; omega
    rw [harith]

lemma scan_append_some (q : List Char) :
    ∀ (l : List Char) (i : Nat) (start : Option Nat) (bc : Nat) (istr esc : Bool)
      (r : Nat × Nat),
      extractScan l i start bc istr esc = some r →
      extractScan (l ++ q) i start bc istr esc = some r
  | [], _, _, _, _, _, _, h => by simp [extractScan] at h
  | ch :: rest, i, start, bc, istr, esc, r, h => by
    by_cases hret : ch = '\x7d' ∧ istr = false ∧ bc = 1 ∧ start.isSome = true
    · obtain ⟨rfl, rfl, rfl, hs⟩ := hret
      obtain ⟨a, rfl⟩ := Option.isSome_iff_exists.mp hs
      rw [scan_cons_ret] at h
      rw [List.cons_append, scan_cons_ret]
      exact h
    · rw [scan_cons_step ch rest i start bc istr esc hret] at h
      rw [List.cons_append, scan_cons_step ch (rest ++ q) i start bc istr esc hret]
      exact scan_append_some q rest _ _ _ _ _ r h

lemma firstClose_eq_last :
    ∀ (l : List Char) (st : ScanState),
      0 < st.depth →
      (∀ n, n < l.length → 0 < (scanFold st (l.take n)).depth) →
      (scanFold st l).depth = 0 →
      firstClose st l = some (l.length - 1)
  | [], st, hd, _, hfull => by
    rw [scanFold_nil] at hfull; omega
  | ch :: rest, st, hd, hpre, hfull => by
    simp only [firstClose]
    by_cases hz : (stateStep st ch).depth = 0
    · rw [if_pos hz]
      cases rest with
      | nil => rfl
      | cons r rs =>
        have := hpre 1 (by simp)
        rw [List.take_succ_cons, List.take_zero] at this
        rw [scanFold_cons, scanFold_nil] at this
        omega
    · rw [if_neg hz]
      have hrest : rest ≠ [] := by
        intro h
        subst h
        rw [scanFold_cons, scanFold_nil] at hfull
        exact hz hfull
      have ih := firstClose_eq_last rest (stateStep st ch) (Nat.pos_of_ne_zero hz)
        (fun n hn => by
          have := hpre (n + 1) (by simp; omega)
          rwa [List.take_succ_cons, scanFold_cons] at this)
        (by rwa [scanFold_cons] at hfull)
      rw [ih]
      simp only [Option.map_some', List.length_cons]
      congr 1
      have : 1 ≤ rest.length := by
        cases rest with
        | nil => exact absurd rfl hrest
        | cons _ _ => simp
      omega

lemma firstClose_none_of_pos :
    ∀ (l : List Char) (st : ScanState),
      (∀ n, n ≤ l.length → 0 < n → 0 < (scanFold st (l.take n)).depth) →
      firstClose st l = none
  | [], _, _ => rfl
  | ch :: rest, st, hpre => by
    simp only [firstClose]
    have h1 := hpre 1 (by simp) (by omega)
    rw [List.take_succ_cons, List.take_zero, scanFold_cons, scanFold_nil] at h1
    rw [if_neg (by omega)]
    rw [firstClose_none_of_pos rest (stateStep st ch)
      (fun n hn hn0 => by
        have := hpre (n + 1) (by simp; omega) (by omega)
        rwa [List.take_succ_cons, scanFold_cons] at this)]
    rfl

lemma stateStep_open : stateStep ⟨0, false, false⟩ '\x7b' = ⟨1, false, false⟩ := by
  simp [stateStep]

lemma stateStep_open' : stateStep initScan '\x7b' = ⟨1, false, false⟩ :=
  stateStep_open

lemma pyStrip_nil : pyStrip [] = [] := rfl

lemma extract_of_balanced (text p obj q : List Char)
    (hs : pyStrip text = p ++ obj ++ q)
    (hp : ∀ c ∈ p, proseNeutral c)
    (hb : BalancedObject obj) :
    extract_first_json_object text = some obj := by
  obtain ⟨hhead, hfull, hpre⟩ := hb
  obtain ⟨t, rfl⟩ : ∃ t, obj = '\x7b' :: t := by
    cases obj with
    | nil => simp at hhead
    | cons c cs => simp at hhead; exact ⟨cs, by rw [hhead]⟩
  have ht : t ≠ [] := by
    intro h
    subst h
    rw [scanFold_cons, scanFold_nil, stateStep_open'] at hfull
    simp at hfull
  have htext : text ≠ [] := by
    intro h
    subst h
    rw [pyStrip_nil] at hs
    exact absurd hs.symm (by simp)
  rw [extract_first_json_object, if_neg htext]
  simp only [hs]
  have hassoc : p ++ ('\x7b' :: t) ++ q = p ++ (('\x7b' :: t) ++ q) := by
    rw [List.append_assoc]
  rw [hassoc, scan_prose_skip p (('\x7b' :: t) ++ q) 0 hp]
  have hret : ¬('\x7b' = '\x7d' ∧ false = false ∧ 0 = 1 ∧ (none : Option Nat).isSome = true) := by
    simp
  rw [List.cons_append, scan_cons_step '\x7b' (t ++ q) (0 + p.length) none 0 false false hret]
  have hns : nextStart ⟨0, false, false⟩ none (0 + p.length) '\x7b' =
      some (0 + p.length) := by
    simp [nextStart]
  rw [hns, stateStep_open]
  have hfc : firstClose ⟨1, false, false⟩ t = some (t.length - 1) := by
    apply firstClose_eq_last t ⟨1, false, false⟩ (by simp)
    · intro n hn
      have := hpre (n + 1) (by simp; omega) (by omega)
      rwa [List.take_succ_cons, scanFold_cons, stateStep_open'] at this
    · have := hfull
      rwa [scanFold_cons, stateStep_open'] at this
  have hscan := scan_reaches_close t 1 false false (0 + p.length + 1) (0 + p.length)
    (t.length - 1) (by simp) hfc
  rw [scan_append_some q t (0 + p.length + 1) (some (0 + p.length)) 1 false false _ hscan]
  have hlen : 1 ≤ t.length := by
    cases t with
    | nil => exact absurd rfl ht
    | cons _ _ => simp
  have hb2 : 0 + p.length + 1 + (t.length - 1) - (0 + p.length) + 1 =
      ('\x7b' :: t).length := by
    simp only [List.length_cons]
    omega
  simp only [hb2]
  have hdrop : (p ++ '\x7b' :: (t ++ q)).drop (0 + p.length) = '\x7b' :: (t ++ q) := by
    have h0 : (0 : Nat) + p.length = p.length := by omega
    rw [h0]
    exact List.drop_left p ('\x7b' :: (t ++ q))
  rw [hdrop]
  simp only [List.length_cons, List.take_succ_cons, List.take_left]

lemma extract_none_of_never_closed (text p r : List Char)
    (hs : pyStrip text = p ++ r)
    (hp : ∀ c ∈ p, proseNeutral c)
    (hr : r.head? = some '\x7b')
    (hnc : ∀ n, n ≤ r.length → 0 < n → 0 < (scanFold initScan (r.take n)).depth) :
    extract_first_json_object text = none := by
  by_cases htext : text = []
  · subst htext; rfl
  · obtain ⟨t, rfl⟩ : ∃ t, r = '\x7b' :: t := by
      cases r with
      | nil => simp at hr
      | cons c cs => simp at hr; exact ⟨cs, by rw [hr]⟩
    rw [extract_first_json_object, if_neg htext]
    simp only [hs]
    rw [scan_prose_skip p ('\x7b' :: t) 0 hp]
    have hret : ¬('\x7b' = '\x7d' ∧ false = false ∧ 0 = 1 ∧ (none : Option Nat).isSome = true) := by
      simp
    rw [scan_cons_step '\x7b' t (0 + p.length) none 0 false false hret]
    have hns : nextStart ⟨0, false, false⟩ none (0 + p.length) '\x7b' =
        some (0 + p.length) := by
      simp [nextStart]
    rw [hns, stateStep_open]
    have hfc : firstClose ⟨1, false, false⟩ t = none := by
      apply firstClose_none_of_pos t ⟨1, false, false⟩
      intro n hn hn0
      have := hnc (n + 1) (by simp; omega) (by omega)
      rwa [List.take_succ_cons, scanFold_cons, stateStep_open'] at this
    rw [scan_never_close t 1 false false (0 + p.length + 1) (some (0 + p.length))
      (by simp) hfc]

lemma stateStep_depth_no_open (d : Nat) (istr e : Bool) (ch : Char) (hch : ch ≠ '\x7b')
    (hd : d = 0) : (stateStep ⟨d, istr, e⟩ ch).depth = 0 := by
  subst hd
  simp only [stateStep]
  split_ifs <;> simp_all

lemma scan_no_open :
    ∀ (l : List Char) (i : Nat) (start : Option Nat) (istr e : Bool),
      (∀ c ∈ l, c ≠ '\x7b') →
      extractScan l i start 0 istr e = none
  | [], _, _, _, _, _ => rfl
  | ch :: rest, i, start, istr, e, hl => by
    have hch : ch ≠ '\x7b' := hl ch (by simp)
    have hret : ¬(ch = '\x7d' ∧ istr = false ∧ 0 = 1 ∧ start.isSome = true) := by
      rintro ⟨-, -, h, -⟩; omega
    rw [scan_cons_step ch rest i start 0 istr e hret]
    have hdep := stateStep_depth_no_open 0 istr e ch hch rfl
    rw [hdep]
    exact scan_no_open rest (i + 1) _ _ _ (fun c hc => hl c (by simp [hc]))

lemma stateStep_stray_close (e : Bool) :
    stateStep ⟨0, false, e⟩ '\x7d' = ⟨0, false, false⟩ := by
  simp only [stateStep]
  split_ifs <;> simp_all

lemma scan_stray_close :
    ∀ (p rest : List Char) (i : Nat),
      (∀ c ∈ p, c = '\x7d') →
      extractScan (p ++ rest) i none 0 false false =
        extractScan rest (i + p.length) none 0 false false
  | [], rest, i, _ => by simp
  | c :: p', rest, i, hp => by
    have hc : c = '\x7d' := hp c (by simp)
    subst hc
    have hret : ¬('\x7d' = '\x7d' ∧ false = false ∧ 0 = 1 ∧ (none : Option Nat).isSome = true) := by
      simp
    rw [List.cons_append, scan_cons_step '\x7d' (p' ++ rest) i none 0 false false hret]
    have hns : nextStart ⟨0, false, false⟩ none i '\x7d' = none := by
      simp [nextStart]
    rw [hns, stateStep_stray_close]
    rw [scan_stray_close p' rest (i + 1) (fun c hc => hp c (by simp [hc]))]
    have harith : i + 1 + p'.length = i + ('\x7d' :: p').length := by simp; omega
    rw [harith]

lemma scan_some_shape :
    ∀ (l : List Char) (i : Nat) (start : Option Nat) (bc : Nat) (istr e : Bool)
      (a b : Nat),
      extractScan l i start bc istr e = some (a, b) →
      (∃ mb, mb < l.length ∧ b = i + mb ∧ l[mb]? = some '\x7d') ∧
      (start = some a ∨ (∃ ma, ma < l.length ∧ a = i + ma ∧ l[ma]? = some '\x7b' ∧ a ≤ b))
  | [], i, start, bc, istr, e, a, b, h => by simp [extractScan] at h
  | ch :: rest, i, start, bc, istr, e, a, b, h => by
    by_cases hret : ch = '\x7d' ∧ istr = false ∧ bc = 1 ∧ start.isSome = true
    · obtain ⟨rfl, rfl, rfl, hsome⟩ := hret
      obtain ⟨a0, rfl⟩ := Option.isSome_iff_exists.mp hsome
      rw [scan_cons_ret] at h
      obtain ⟨rfl, rfl⟩ : a0 = a ∧ i = b := by simpa using h
      refine ⟨⟨0, by simp, by omega, by simp⟩, Or.inl rfl⟩
    · rw [scan_cons_step ch rest i start bc istr e hret] at h
      obtain ⟨⟨mb, hmb, rfl, hgb⟩, hstart⟩ :=
        scan_some_shape rest (i + 1) _ _ _ _ a b h
      refine ⟨⟨mb + 1, by simp; omega, by omega, by simpa using hgb⟩, ?_⟩
      rcases hstart with hst | ⟨ma, hma, rfl, hga, hab⟩
      · -- the recorded start after this step equals `some a`
        by_cases hcond : ch = '\x7b' ∧ istr = false ∧ bc = 0
        · rw [nextStart, if_pos hcond] at hst
          obtain ⟨rfl⟩ : i = a := by simpa using hst
          exact Or.inr ⟨0, by simp, by omega, by simp [hcond.1], by omega⟩
        · rw [nextStart, if_neg hcond] at hst
          exact Or.inl hst
      · exact Or.inr ⟨ma + 1, by simp; omega, by omega, by simpa using hga, hab⟩

lemma extract_some_shape (text v : List Char)
    (h : extract_first_json_object text = some v) :
    (∃ l r, l ++ v ++ r = pyStrip text) ∧
    v.head? = some '\x7b' ∧ v.getLast? = some '\x7d' := by
  rw [extract_first_json_object] at h
  by_cases htext : text = []
  · rw [if_pos htext] at h
    simp at h
  · rw [if_neg htext] at h
    set s := pyStrip text with hsdef
    cases hscan : extractScan s 0 none 0 false false with
    | none => rw [hscan] at h; simp at h
    | some ab =>
      obtain ⟨a, b⟩ := ab
      rw [hscan] at h
      simp only [Option.some.injEq] at h
      obtain ⟨⟨mb, hmb, hb, hgb⟩, hstart⟩ :=
        scan_some_shape s 0 none 0 false false a b hscan
      rcases hstart with hst | ⟨ma, hma, ha, hga, hab⟩
      · exact absurd hst (by simp)
      · have ha' : a = ma := by omega
        have hb' : b = mb := by omega
        subst ha' hb'
        subst h
        have halen : a < s.length := hma
        have hblen : b < s.length := hmb
        constructor
        · refine ⟨s.take a, s.drop (b + 1), ?_⟩
          have h1 : s.take a ++ (s.drop a).take (b - a + 1) = s.take (b + 1) := by
            rw [← List.take_add]
            congr 1
            omega
          rw [h1, List.take_append_drop]
        · constructor
          · rw [List.head?_eq_getElem?]
            rw [List.getElem?_take_of_lt (by omega)]
            rw [List.getElem?_drop]
            have : a + 0 = a := by omega
            rw [this]
            exact hga
          · rw [List.getLast?_eq_getElem?]
            have hlen : ((s.drop a).take (b - a + 1)).length = b - a + 1 := by
              rw [List.length_take, List.length_drop]
              omega
            rw [hlen]
            have h2 : b - a + 1 - 1 = b - a := by omega
            rw [h2]
            rw [List.getElem?_take_of_lt (by omega)]
            rw [List.getElem?_drop]
            have h3 : a + (b - a) = b := by omega
            rw [h3]
            exact hgb

lemma startsWithL_iff : ∀ (n h : List Char), startsWithL n h = true ↔ ∃ r, n ++ r = h
  | [], h => by simp [startsWithL]
  | a :: as, [] => by simp [startsWithL]
  | a :: as, b :: bs => by
    simp only [startsWithL, Bool.and_eq_true, beq_iff_eq]
    rw [startsWithL_iff as bs]
    constructor
    · rintro ⟨rfl, r, rfl⟩
      exact ⟨r, rfl⟩
    · rintro ⟨r, hr⟩
      simp only [List.cons_append, List.cons.injEq] at hr
      exact ⟨hr.1, r, hr.2⟩

lemma pyIn_iff : ∀ (n h : List Char), pyIn n h = true ↔ ∃ l r, l ++ n ++ r = h
  | n, [] => by
    simp only [pyIn, List.isEmpty_iff]
    constructor
    · rintro rfl
      exact ⟨[], [], rfl⟩
    · rintro ⟨l, r, hlr⟩
      simp only [List.append_eq_nil] at hlr
      exact hlr.1.2
  | n, c :: rest => by
    simp only [pyIn, Bool.or_eq_true]
    rw [startsWithL_iff, pyIn_iff n rest]
    constructor
    · rintro (⟨r, hr⟩ | ⟨l, r, hlr⟩)
      · exact ⟨[], r, by simpa using hr⟩
      · exact ⟨c :: l, r, by simp [hlr]⟩
    · rintro ⟨l, r, hlr⟩
      cases l with
      | nil => exact Or.inl ⟨r, by simpa using hlr⟩
      | cons x xs =>
        simp only [List.cons_append, List.cons.injEq] at hlr
        exact Or.inr ⟨xs, r, by simp [hlr.2]⟩

lemma arunCount_append (d : Nat) (l1 l2 : List LogEvent) :
    arunCount d (l1 ++ l2) = arunCount d l1 + arunCount d l2 := by
  induction l1 with
  | nil => simp [arunCount]
  | cons e l1 ih =>
    cases e <;> simp [arunCount, ih]
    omega

lemma scrapeDateStep_arunCount (rt : List String) (o : Oracles) (s : LoopState)
    (k d : Nat) :
    arunCount d (scrapeDateStep rt o s k).log =
      arunCount d s.log + (if k = d then 1 else 0) := by
  simp only [scrapeDateStep]
  repeat' split
  all_goals simp [arunCount_append, arunCount]
  all_goals omega

lemma run_succ (rt : List String) (o : Oracles) (n : Nat) :
    scrape_hotel_prices_run rt o (n + 1) =
      scrapeDateStep rt o (scrape_hotel_prices_run rt o n) n := by
  unfold scrape_hotel_prices_run
  rw [List.range_succ, List.foldl_append]
  rfl

lemma run_arunCount (rt : List String) (o : Oracles) :
    ∀ (n d : Nat), arunCount d (scrape_hotel_prices_run rt o n).log =
      if d < n then 1 else 0
  | 0, d => by
    simp [scrape_hotel_prices_run, arunCount]
  | n + 1, d => by
    rw [run_succ, scrapeDateStep_arunCount, run_arunCount rt o n d]
    split_ifs <;> omega

lemma scrapeDateStep_captcha (rt : List String) (o : Oracles) (s : LoopState) (k : Nat)
    (hsucc : (o.collab k).success = true)
    (htr : truthy (o.collab k).extracted_content = true)
    (hcap : has_captcha ((o.collab k).extracted_content.getD []) = true) :
    (scrapeDateStep rt o s k).rates = s.rates ∧
    ∃ pre, LogEvent.arunCall k ∈ pre ∧
      (scrapeDateStep rt o s k).log =
        s.log ++ pre ++
          [LogEvent.captchaSaved k ((o.collab k).extracted_content.getD []),
           LogEvent.rotated, LogEvent.delayed 30 60] := by
  refine ⟨?_, ?_⟩
  · simp only [scrapeDateStep, hsucc, htr, hcap, true_and, and_self, if_true]
  · simp only [scrapeDateStep, hsucc, htr, hcap, true_and, and_self, if_true]
    exact ⟨(if should_rotate_session s.sm (o.iterTime k) = true then [LogEvent.rotated] else []) ++
      (if 0 < k then [LogEvent.delayed 8 20] else []) ++ [LogEvent.arunCall k],
      by simp, by simp [List.append_assoc]⟩

lemma scrapeDateStep_okDict (rt : List String) (o : Oracles) (s : LoopState) (k : Nat)
    (d : DailyRate)
    (hsucc : (o.collab k).success = true)
    (htr : truthy (o.collab k).extracted_content = true)
    (hcap : has_captcha ((o.collab k).extracted_content.getD []) = false)
    (hparse : o.parse ((extract_first_json_object ((o.collab k).extracted_content.getD [])).getD
      ((o.collab k).extracted_content.getD [])) = ParseOutcome.okDict d) :
    (scrapeDateStep rt o s k).rates = s.rates ++ [d] ∧
    ∃ pre, (∀ e ∈ pre, e = LogEvent.rotated ∨ e = LogEvent.delayed 8 20 ∨
        e = LogEvent.arunCall k) ∧
      (scrapeDateStep rt o s k).log =
        s.log ++ pre ++ [LogEvent.rateAppended k d] ++
          (if d.listings.length < rt.length then
            [LogEvent.extractionWarn k] ++
              (if missing_rooms rt d.listings = ∅ then []
               else [LogEvent.missingReported k (missing_rooms rt d.listings)])
           else []) := by
  refine ⟨?_, ?_⟩
  · simp only [scrapeDateStep, hsucc, htr, hcap, hparse, true_and, and_self, if_true,
      Bool.false_eq_true, if_false]
  · simp only [scrapeDateStep, hsucc, htr, hcap, hparse, true_and, and_self, if_true,
      Bool.false_eq_true, if_false]
    refine ⟨(if should_rotate_session s.sm (o.iterTime k) = true then [LogEvent.rotated] else []) ++
      (if 0 < k then [LogEvent.delayed 8 20] else []) ++ [LogEvent.arunCall k], ?_, ?_⟩
    · intro e he
      simp only [List.mem_append] at he
      rcases he with (he | he) | he
      · split at he <;> simp_all
      · split at he <;> simp_all
      · simp_all
    · simp [List.append_assoc]

lemma foldl_union_init (init : Finset String) :
    ∀ (l : List (List String)),
      List.foldl (fun acc x => acc ∪ current_sample_rooms x) init l =
        init ∪ discovered_union l
  | [] => by simp [discovered_union]
  | x :: xs => by
    have h1 := foldl_union_init (init ∪ current_sample_rooms x) xs
    have h2 := foldl_union_init (∅ ∪ current_sample_rooms x) xs
    simp only [discovered_union, List.foldl_cons]
    rw [h1, h2]
    rw [Finset.empty_union, Finset.union_assoc]

lemma discovered_union_cons (x : List String) (xs : List (List String)) :
    discovered_union (x :: xs) = current_sample_rooms x ∪ discovered_union xs := by
  simp only [discovered_union, List.foldl_cons]
  rw [foldl_union_init, Finset.empty_union]
  rfl

lemma discovered_union_append (l1 l2 : List (List String)) :
    discovered_union (l1 ++ l2) = discovered_union l1 ∪ discovered_union l2 := by
  simp only [discovered_union, List.foldl_append]
  rw [foldl_union_init]
  rfl

lemma mem_discovered_union (x : String) :
    ∀ (samples : List (List String)),
      x ∈ discovered_union samples ↔ ∃ l ∈ samples, x ∈ l
  | [] => by simp [discovered_union]
  | s :: ss => by
    rw [discovered_union_cons, Finset.mem_union, mem_discovered_union x ss]
    simp [current_sample_rooms]

lemma mem_of_mem_pyStrip (c : Char) (l : List Char) (h : c ∈ pyStrip l) : c ∈ l := by
  unfold pyStrip at h
  rw [List.mem_reverse] at h
  have h1 : c ∈ (l.dropWhile isPySpace).reverse :=
    (List.dropWhile_sublist isPySpace).subset h
  rw [List.mem_reverse] at h1
  exact (List.dropWhile_sublist isPySpace).subset h1

/-- Claim C5 (confirmed): `should_rotate_session` returns true iff the
request count has reached REQUEST_LIMIT (10) or the session age has
reached TIME_LIMIT (20 minutes = 1200 s); at `request_count = 9` below
the time limit it does not rotate, and at 10 it must rotate. -/
theorem C5_rotation_trigger (s : SessionManager) (now : Int) :
    (should_rotate_session s now = true ↔
      (10 ≤ s.request_count ∨ 1200 ≤ now - s.start_time)) ∧
    (s.request_count = 9 → now - s.start_time < 1200 →
      should_rotate_session s now = false) ∧
    (s.request_count = 10 → should_rotate_session s now = true) := by
  refine ⟨?_, ?_, ?_⟩
  · simp [should_rotate_session]
  · intro h1 h2
    simp [should_rotate_session, h1]
    omega
  · intro h1
    simp [should_rotate_session, h1]

/-- Witness for C5 at a concrete session: 9 requests and age 100 s do not
rotate; 10 requests must rotate. -/
theorem C5_witness :
    should_rotate_session
      { session_id := "s", user_agent := "u", viewport := ⟨1, 1⟩,
        request_count := 9, start_time := 0 } 100 = false ∧
    should_rotate_session
      { session_id := "s", user_agent := "u", viewport := ⟨1, 1⟩,
        request_count := 10, start_time := 0 } 100 = true :=
  ⟨(C5_rotation_trigger _ 100).2.1 rfl (by decide),
   (C5_rotation_trigger _ 100).2.2 rfl⟩

/-- Claim C6 (confirmed): `rotate_session` replaces the entire session by
a freshly constructed one — fresh id built from the current time and a
fresh random draw, freshly drawn user agent and viewport, request count
reset to zero, creation time reset to now; the result is independent of
the previous session state. -/
theorem C6_rotation_fresh (s : SessionManager) (now : Int) (r : Rng) :
    rotate_session s now r = SessionManager.init now r ∧
    (rotate_session s now r).request_count = 0 ∧
    (rotate_session s now r).start_time = now ∧
    (rotate_session s now r).user_agent = get_random_user_agent r ∧
    (rotate_session s now r).viewport = get_random_viewport r ∧
    (rotate_session s now r).session_id =
      "session_" ++ toString now ++ "_" ++ toString (1000 + r.idRand % 9000) ∧
    ∀ s' : SessionManager, rotate_session s' now r = rotate_session s now r :=
  ⟨rfl, rfl, rfl, rfl, rfl, rfl, fun _ => rfl⟩

/-- Claim C8 (confirmed): both planners are pure functions of their
inputs producing exactly `count` items; the i-th pricing date is
`start + i` (interval fixed at 1) with checkout = checkin + 1, and the
i-th discovery date is `start + i * interval`. -/
theorem C8_navigation_planner (base : String) (start : Int) (n interval : Nat) :
    (pricing_plan base start n).length = n ∧
    (discovery_plan base start n interval).length = n ∧
    ∀ i : Nat, i < n →
      (pricing_plan base start n)[i]? =
        some { url := { base := base, chkin := start + (i : Int),
                        chkout := start + (i : Int) + 1 },
               date := start + (i : Int) } ∧
      (discovery_plan base start n interval)[i]? =
        some { url := { base := base, chkin := start + (i : Int) * (interval : Int),
                        chkout := start + (i : Int) * (interval : Int) + 1 },
               date := start + (i : Int) * (interval : Int) } := by
  refine ⟨?_, ?_, ?_⟩
  · simp only [pricing_plan, List.length_map, List.length_range]
  · simp only [discovery_plan, List.length_map, List.length_range]
  · intro i hi
    constructor
    · simp only [pricing_plan, List.getElem?_map, List.getElem?_range hi, Option.map_some']
    · simp only [discovery_plan, List.getElem?_map, List.getElem?_range hi, Option.map_some']

/-- Witness for C8: the spec's end-to-end sample window (count 2,
interval 7) starting at day 0. -/
theorem C8_witness :
    (pricing_plan "u" 0 2)[1]? =
      some { url := { base := "u", chkin := 0 + (1 : Nat), chkout := 0 + (1 : Nat) + 1 },
             date := 0 + (1 : Nat) } ∧
    (discovery_plan "u" 0 2 7)[1]? =
      some { url := { base := "u", chkin := 0 + (1 : Nat) * (7 : Nat),
                      chkout := 0 + (1 : Nat) * (7 : Nat) + 1 },
             date := 0 + (1 : Nat) * (7 : Nat) } :=
  (C8_navigation_planner "u" 0 2 7).2.2 1 (by decide)

/-- Claim C9 (confirmed): the discovery aggregator is a fold of set
union over the per-date room-name sets — idempotent (a name discovered
twice yields one entry), associative and commutative (order and
regrouping of samples do not matter), membership is exact
case-sensitive string identity, and the final catalog is a sorted
duplicate-free sequence. -/
theorem C9_union_aggregator :
    (∀ (samples : List (List String)) (s : List String),
      discovered_union (samples ++ [s, s]) = discovered_union (samples ++ [s])) ∧
    (∀ l1 l2 : List (List String),
      discovered_union (l1 ++ l2) = discovered_union l1 ∪ discovered_union l2) ∧
    (∀ l1 l2 : List (List String),
      discovered_union (l1 ++ l2) = discovered_union (l2 ++ l1)) ∧
    (∀ s t u : List String,
      (current_sample_rooms s ∪ current_sample_rooms t) ∪ current_sample_rooms u =
        current_sample_rooms s ∪ (current_sample_rooms t ∪ current_sample_rooms u)) ∧
    (∀ (x : String) (samples : List (List String)),
      x ∈ discovered_union samples ↔ ∃ l ∈ samples, x ∈ l) ∧
    (∀ samples : List (List String),
      (room_types_output samples).Nodup ∧
      List.Sorted (· ≤ ·) (room_types_output samples)) ∧
    ("Room" ∈ room_types_output [["Room"], ["room"]] ∧
     "room" ∈ room_types_output [["Room"], ["room"]] ∧
     (room_types_output [["Room"], ["room"]]).length = 2) ∧
    (∀ a : String, discovered_union [[a], [a]] = {a}) := by
  refine ⟨?_, discovered_union_append, ?_, ?_, mem_discovered_union, ?_, ?_, ?_⟩
  · intro samples s
    rw [discovered_union_append, discovered_union_append,
      discovered_union_cons, discovered_union_cons]
    simp [discovered_union, ← Finset.union_assoc]
  · intro l1 l2
    rw [discovered_union_append, discovered_union_append, Finset.union_comm]
  · intro s t u
    rw [Finset.union_assoc]
  · intro samples
    exact ⟨Finset.sort_nodup _ _, Finset.sort_sorted _ _⟩
  · refine ⟨?_, ?_, ?_⟩
    · rw [room_types_output, Finset.mem_sort, mem_discovered_union]
      decide
    · rw [room_types_output, Finset.mem_sort, mem_discovered_union]
      decide
    · rw [room_types_output, Finset.length_sort]
      decide
  · intro a
    rw [discovered_union_cons, discovered_union_cons]
    simp [current_sample_rooms, discovered_union]

/-- Claim C2 (confirmed): while scanning, an unescaped double quote
toggles the in-string state and an escaped one leaves it unchanged; a
backslash sets the escape state for exactly the next character (the
escape flag holds after a character iff that character was an unescaped
backslash); braces seen inside a string leave the brace depth unchanged;
and away from the early return the scanning loop advances exactly by
this state transition. -/
theorem C2_string_escape_tracking (st : ScanState) (ch : Char) :
    (st.esc = false → ch = '"' → (stateStep st ch).inStr = !st.inStr) ∧
    (st.esc = true → (stateStep st ch).inStr = st.inStr) ∧
    ((stateStep st ch).esc = true ↔ (ch = '\x5c' ∧ st.esc = false)) ∧
    (st.inStr = true → (ch = '\x7b' ∨ ch = '\x7d') →
      (stateStep st ch).depth = st.depth) ∧
    (∀ (rest : List Char) (i : Nat) (start : Option Nat),
      ¬(ch = '\x7d' ∧ st.inStr = false ∧ st.depth = 1 ∧ start.isSome = true) →
      extractScan (ch :: rest) i start st.depth st.inStr st.esc =
        extractScan rest (i + 1) (nextStart st start i ch)
          (stateStep st ch).depth (stateStep st ch).inStr (stateStep st ch).esc) := by
  obtain ⟨d, istr, e⟩ := st
  refine ⟨?_, ?_, ?_, ?_, ?_⟩
  · rintro rfl rfl
    simp only [stateStep]
    split_ifs <;> simp_all
  · rintro rfl
    simp only [stateStep]
    split_ifs <;> simp_all
  · simp only [stateStep]
    split_ifs <;> simp_all
  · rintro rfl (rfl | rfl) <;>
      · simp only [stateStep]
        split_ifs <;> simp_all
  · intro rest i start h
    exact scan_cons_step ch rest i start d istr e h

/-- Witness for C2: a quote toggles the in-string flag from a clean
state; an escaped character leaves it; a brace inside a string keeps
depth 1; and the loop on a neutral character steps by `stateStep`. -/
theorem C2_witness :
    (stateStep ⟨0, false, false⟩ '"').inStr = !false ∧
    (stateStep ⟨0, true, true⟩ '"').inStr = true ∧
    (stateStep ⟨1, true, false⟩ '\x7b').depth = 1 ∧
    extractScan ['a'] 0 none 0 false false =
      extractScan [] 1 (nextStart ⟨0, false, false⟩ none 0 'a')
        (stateStep ⟨0, false, false⟩ 'a').depth (stateStep ⟨0, false, false⟩ 'a').inStr
        (stateStep ⟨0, false, false⟩ 'a').esc :=
  ⟨(C2_string_escape_tracking ⟨0, false, false⟩ '"').1 rfl rfl,
   (C2_string_escape_tracking ⟨0, true, true⟩ '"').2.1 rfl,
   (C2_string_escape_tracking ⟨1, true, false⟩ '\x7b').2.2.2.1 rfl (Or.inl rfl),
   (C2_string_escape_tracking ⟨0, false, false⟩ 'a').2.2.2.2 [] 0 none (by decide)⟩

/-- Claim C3 counterexample: with a collaborator stub that always
returns a CAPTCHA page, the single planned date is attempted exactly
once — not the 2 times (1 original + 1 retry) the claim states. -/
theorem C3_counterexample :
    arunCount 0 (scrape_hotel_prices_run ["A"] alwaysCaptchaOracles 1).log = 1 ∧
    ¬ arunCount 0 (scrape_hotel_prices_run ["A"] alwaysCaptchaOracles 1).log = 2 := by
  decide

/-- Claim C3 (amended): on a CAPTCHA-detected attempt the orchestrator
persists the raw page text, forces a session rotation and applies a
long 30-60 s delay, then abandons the date and the run continues to the
next date with no retry — every planned date, permanently CAPTCHA'd or
not, is attempted exactly once. -/
theorem C3_captcha_no_retry :
    (∀ (rt : List String) (o : Oracles) (n d : Nat), d < n →
      arunCount d (scrape_hotel_prices_run rt o n).log = 1) ∧
    (∀ (rt : List String) (o : Oracles) (s : LoopState) (k : Nat),
      (o.collab k).success = true →
      truthy (o.collab k).extracted_content = true →
      has_captcha ((o.collab k).extracted_content.getD []) = true →
      (scrapeDateStep rt o s k).rates = s.rates ∧
      ∃ pre, LogEvent.arunCall k ∈ pre ∧
        (scrapeDateStep rt o s k).log =
          s.log ++ pre ++
            [LogEvent.captchaSaved k ((o.collab k).extracted_content.getD []),
             LogEvent.rotated, LogEvent.delayed 30 60]) := by
  refine ⟨?_, ?_⟩
  · intro rt o n d hd
    rw [run_arunCount rt o n d, if_pos hd]
  · intro rt o s k h1 h2 h3
    exact scrapeDateStep_captcha rt o s k h1 h2 h3

/-- Witness for C3: with the always-CAPTCHA stub over two dates, date 1
is attempted once; and the CAPTCHA branch of a step persists the raw
text, rotates and applies the long delay while keeping the rates. -/
theorem C3_witness :
    arunCount 1 (scrape_hotel_prices_run ["A"] alwaysCaptchaOracles 2).log = 1 ∧
    ((scrapeDateStep ["A"] alwaysCaptchaOracles zeroState 0).rates = zeroState.rates ∧
      ∃ pre, LogEvent.arunCall 0 ∈ pre ∧
        (scrapeDateStep ["A"] alwaysCaptchaOracles zeroState 0).log =
          zeroState.log ++ pre ++
            [LogEvent.captchaSaved 0
              ((alwaysCaptchaOracles.collab 0).extracted_content.getD []),
             LogEvent.rotated, LogEvent.delayed 30 60]) :=
  ⟨C3_captcha_no_retry.1 ["A"] alwaysCaptchaOracles 2 1 (by decide),
   C3_captcha_no_retry.2 ["A"] alwaysCaptchaOracles zeroState 0 rfl (by decide) (by decide)⟩

/-- Claim C4 counterexample: the extracted page text "robot" contains
the claimed keyword "robot", so the claimed five-keyword predicate
holds, yet the code's indicator check does not match and the attempt
does not terminate as CAPTCHA-detected (it proceeds to parsing). -/
theorem C4_counterexample :
    has_captcha ("robot".data) = false ∧
    spec_has_captcha ("robot".data) = true ∧
    "robot".data ∈ spec_captcha_keywords ∧
    (scrape_hotel_prices_run ["A"] robotOracles 1).log =
      [LogEvent.arunCall 0, LogEvent.formatWarn 0] := by
  decide

/-- Claim C4 (amended): the CAPTCHA predicate applied to the extracted
content is a case-insensitive substring match against exactly the
four-keyword list "show us your human side", "prove you are human",
"captcha", "start puzzle" (without "robot", which only the in-page
JavaScript checks); it holds iff one of those keywords occurs in the
lowercased text, and a match terminates the attempt as
CAPTCHA-detected: raw text persisted, session rotated, long delay, no
rate recorded. -/
theorem C4_captcha_predicate :
    (∀ content : List Char,
      has_captcha content = true ↔
        ∃ ind ∈ captcha_indicators, ∃ l r, l ++ ind ++ r = pyLower content) ∧
    captcha_indicators =
      ["show us your human side".data, "prove you are human".data,
       "captcha".data, "start puzzle".data] ∧
    (∀ (rt : List String) (o : Oracles) (s : LoopState) (k : Nat),
      (o.collab k).success = true →
      truthy (o.collab k).extracted_content = true →
      has_captcha ((o.collab k).extracted_content.getD []) = true →
      (scrapeDateStep rt o s k).rates = s.rates ∧
      ∃ pre, LogEvent.arunCall k ∈ pre ∧
        (scrapeDateStep rt o s k).log =
          s.log ++ pre ++
            [LogEvent.captchaSaved k ((o.collab k).extracted_content.getD []),
             LogEvent.rotated, LogEvent.delayed 30 60]) := by
  refine ⟨?_, rfl, ?_⟩
  · intro content
    rw [has_captcha, List.any_eq_true]
    constructor
    · rintro ⟨ind, hmem, hin⟩
      exact ⟨ind, hmem, (pyIn_iff ind (pyLower content)).mp hin⟩
    · rintro ⟨ind, hmem, hex⟩
      exact ⟨ind, hmem, (pyIn_iff ind (pyLower content)).mpr hex⟩
  · intro rt o s k h1 h2 h3
    exact scrapeDateStep_captcha rt o s k h1 h2 h3

/-- Witness for C4: the all-CAPTCHA stub's content matches the
predicate and its step takes the CAPTCHA branch. -/
theorem C4_witness :
    (scrapeDateStep ["A"] alwaysCaptchaOracles zeroState 1).rates = zeroState.rates ∧
    ∃ pre, LogEvent.arunCall 1 ∈ pre ∧
      (scrapeDateStep ["A"] alwaysCaptchaOracles zeroState 1).log =
        zeroState.log ++ pre ++
          [LogEvent.captchaSaved 1
            ((alwaysCaptchaOracles.collab 1).extracted_content.getD []),
           LogEvent.rotated, LogEvent.delayed 30 60] :=
  C4_captcha_predicate.2.2 ["A"] alwaysCaptchaOracles zeroState 1 rfl (by decide) (by decide)

/-- Claim C7 counterexample: over the catalog [A, B, C], a validated
rate with three listings (B duplicated) omits "C", yet because the
listing count equals the catalog size the run appends the rate with no
extraction warning and no missing-room report — the mismatch is
silently dropped. -/
theorem C7_counterexample :
    "C" ∈ ["A", "B", "C"] ∧
    "C" ∉ dupRate.listings.map RoomListing.name ∧
    (scrape_hotel_prices_run ["A", "B", "C"] dupRateOracles 1).log =
      [LogEvent.arunCall 0, LogEvent.rateAppended 0 dupRate] := by
  decide

/-- Claim C7 (amended): the missing-room set contains exactly the
catalog names absent from the listings, and it is reported (after the
rate is accepted) only when the listing count is strictly below the
catalog size — a full-count listing that still omits a catalog name is
accepted without any report; for a catalog of 3 names with exactly the
first 2 listed, the missing set is exactly the third name. -/
theorem C7_partial_detection :
    (∀ (rt : List String) (ls : List RoomListing) (x : String),
      x ∈ missing_rooms rt ls ↔ (x ∈ rt ∧ x ∉ ls.map RoomListing.name)) ∧
    (∀ (rt : List String) (o : Oracles) (s : LoopState) (k : Nat) (d : DailyRate),
      (o.collab k).success = true →
      truthy (o.collab k).extracted_content = true →
      has_captcha ((o.collab k).extracted_content.getD []) = false →
      o.parse ((extract_first_json_object ((o.collab k).extracted_content.getD [])).getD
        ((o.collab k).extracted_content.getD [])) = ParseOutcome.okDict d →
      (scrapeDateStep rt o s k).rates = s.rates ++ [d] ∧
      ∃ pre, (∀ e ∈ pre, e = LogEvent.rotated ∨ e = LogEvent.delayed 8 20 ∨
          e = LogEvent.arunCall k) ∧
        (scrapeDateStep rt o s k).log =
          s.log ++ pre ++ [LogEvent.rateAppended k d] ++
            (if d.listings.length < rt.length then
              [LogEvent.extractionWarn k] ++
                (if missing_rooms rt d.listings = ∅ then []
                 else [LogEvent.missingReported k (missing_rooms rt d.listings)])
             else [])) ∧
    (∀ p q : String,
      missing_rooms ["A", "B", "C"] [⟨"A", p⟩, ⟨"B", q⟩] = {"C"}) := by
  refine ⟨?_, ?_, ?_⟩
  · intro rt ls x
    simp [missing_rooms]
  · intro rt o s k d h1 h2 h3 h4
    exact scrapeDateStep_okDict rt o s k d h1 h2 h3 h4
  · intro p q
    ext x
    simp only [missing_rooms, Finset.mem_sdiff, List.mem_toFinset, List.map_cons,
      List.map_nil, Finset.mem_singleton, List.mem_cons, List.not_mem_nil, or_false]
    constructor
    · rintro ⟨h1, h2⟩
      rcases h1 with rfl | rfl | rfl
      · exact absurd (Or.inl rfl) h2
      · exact absurd (Or.inr rfl) h2
      · rfl
    · rintro rfl
      exact ⟨Or.inr (Or.inr rfl), by decide⟩

/-- Witness for C7: a two-of-three listing is accepted as a rate and
the third catalog name is reported as missing. -/
theorem C7_witness :
    ((scrapeDateStep ["A", "B", "C"] twoOfThreeOracles zeroState 0).rates =
        zeroState.rates ++ [twoOfThreeRate] ∧
      ∃ pre, (∀ e ∈ pre, e = LogEvent.rotated ∨ e = LogEvent.delayed 8 20 ∨
          e = LogEvent.arunCall 0) ∧
        (scrapeDateStep ["A", "B", "C"] twoOfThreeOracles zeroState 0).log =
          zeroState.log ++ pre ++ [LogEvent.rateAppended 0 twoOfThreeRate] ++
            (if twoOfThreeRate.listings.length < (["A", "B", "C"] : List String).length then
              [LogEvent.extractionWarn 0] ++
                (if missing_rooms ["A", "B", "C"] twoOfThreeRate.listings = ∅ then []
                 else [LogEvent.missingReported 0
                   (missing_rooms ["A", "B", "C"] twoOfThreeRate.listings)])
             else [])) ∧
    missing_rooms ["A", "B", "C"] [⟨"A", "¥10,000"⟩, ⟨"B", "Sold Out"⟩] = {"C"} :=
  ⟨C7_partial_detection.2.1 ["A", "B", "C"] twoOfThreeOracles zeroState 0 twoOfThreeRate
      rfl (by decide) (by decide) rfl,
   C7_partial_detection.2.2 "¥10,000" "Sold Out"⟩

/-- Claim C1 counterexample: (i) the text `{}}` has unbalanced braces
(one opening, two closing) yet the parser returns `{}` rather than
none; (ii) the text `a"b {"x": 1}` is one balanced top-level object
surrounded by non-brace prose, yet the stray quote in the prose makes
the parser return none instead of the object. -/
theorem C1_counterexample :
    extract_first_json_object ("\x7b\x7d\x7d".data) = some ("\x7b\x7d".data) ∧
    ¬ ("\x7b\x7d\x7d".data.count '\x7b' = "\x7b\x7d\x7d".data.count '\x7d') ∧
    extract_first_json_object ("a\"b \x7b\"x\": 1\x7d".data) = none ∧
    BalancedObject ("\x7b\"x\": 1\x7d".data) ∧
    (∀ c ∈ "a\"b ".data, c ≠ '\x7b' ∧ c ≠ '\x7d') ∧
    "a\"b ".data ++ "\x7b\"x\": 1\x7d".data = "a\"b \x7b\"x\": 1\x7d".data := by
  decide

/-- Claim C1 (amended): when the prose before the object is free of
braces, quotes and backslashes, the parser returns exactly the first
balanced top-level object, whatever follows it; and when after such
prose an opening brace is never matched (the string/escape-aware depth
never returns to zero), the parser returns none. -/
theorem C1_salvage_amended :
    (∀ text p obj q : List Char,
      pyStrip text = p ++ obj ++ q →
      (∀ c ∈ p, proseNeutral c) →
      BalancedObject obj →
      extract_first_json_object text = some obj) ∧
    (∀ text p r : List Char,
      pyStrip text = p ++ r →
      (∀ c ∈ p, proseNeutral c) →
      r.head? = some '\x7b' →
      (∀ n, n ≤ r.length → 0 < n → 0 < (scanFold initScan (r.take n)).depth) →
      extract_first_json_object text = none) :=
  ⟨extract_of_balanced, extract_none_of_never_closed⟩

/-- Witness for C1: a nested object in prose is salvaged exactly, and a
never-closed object yields none. -/
theorem C1_witness :
    extract_first_json_object ("note: \x7b\"a\": \x7b\x7d\x7d end".data) =
      some ("\x7b\"a\": \x7b\x7d\x7d".data) ∧
    extract_first_json_object ("x \x7b\"a\": 1".data) = none :=
  ⟨C1_salvage_amended.1 ("note: \x7b\"a\": \x7b\x7d\x7d end".data) ("note: ".data)
      ("\x7b\"a\": \x7b\x7d\x7d".data) (" end".data) (by decide) (by decide) (by decide),
   C1_salvage_amended.2 ("x \x7b\"a\": 1".data) ("x ".data) ("\x7b\"a\": 1".data)
      (by decide) (by decide) (by decide) (by decide)⟩

/-- Claim C10 (confirmed): the empty input and any input without an
opening brace yield none; any returned value is a contiguous substring
of the whitespace-stripped input beginning with an opening and ending
with a closing brace; stray closing braces before the first top-level
opening brace are skipped, so a text globally unbalanced only by such a
prefix can still yield an object. -/
theorem C10_salvage_shape :
    extract_first_json_object [] = none ∧
    (∀ text : List Char, '\x7b' ∉ text → extract_first_json_object text = none) ∧
    (∀ text v : List Char, extract_first_json_object text = some v →
      (∃ l r, l ++ v ++ r = pyStrip text) ∧
      v.head? = some '\x7b' ∧ v.getLast? = some '\x7d') ∧
    (∀ (p rest : List Char) (i : Nat), (∀ c ∈ p, c = '\x7d') →
      extractScan (p ++ rest) i none 0 false false =
        extractScan rest (i + p.length) none 0 false false) ∧
    extract_first_json_object ("\x7d\x7d\x7dnoise \x7b\"a\": 1\x7d".data) =
      some ("\x7b\"a\": 1\x7d".data) := by
  refine ⟨rfl, ?_, extract_some_shape, scan_stray_close, by decide⟩
  intro text hno
  by_cases ht : text = []
  · subst ht; rfl
  · rw [extract_first_json_object, if_neg ht]
    have hs : ∀ c ∈ pyStrip text, c ≠ '\x7b' := by
      intro c hc hceq
      subst hceq
      exact hno (mem_of_mem_pyStrip _ text hc)
    rw [scan_no_open (pyStrip text) 0 none false false hs]

/-- Witness for C10: a brace-free input yields none; a stripped input
containing an object yields a brace-delimited contiguous substring; a
stray-close prefix is skipped by the scanner. -/
theorem C10_witness :
    extract_first_json_object ("no braces here".data) = none ∧
    ((∃ l r, l ++ "\x7b\x7d".data ++ r = pyStrip (" \x7b\x7d! ".data)) ∧
      ("\x7b\x7d".data).head? = some '\x7b' ∧ ("\x7b\x7d".data).getLast? = some '\x7d') ∧
    extractScan ("\x7d\x7d".data ++ "\x7b\x7d".data) 0 none 0 false false =
      extractScan ("\x7b\x7d".data) (0 + ("\x7d\x7d".data).length) none 0 false false :=
  ⟨C10_salvage_shape.2.1 ("no braces here".data) (by decide),
   C10_salvage_shape.2.2.1 (" \x7b\x7d! ".data) ("\x7b\x7d".data) (by decide),
   C10_salvage_shape.2.2.2.1 ("\x7d\x7d".data) ("\x7b\x7d".data) 0 (by decide)⟩
